import Mathlib

/-!
Shallow embedding of `pyRofex/clients/websocket_rfx.py` (class `WebSocketClient`).

Handlers are modelled by identifiers (`Nat`); whether a given handler raises
when invoked on the current frame is given by an oracle `raises : Nat → Bool`.
Dispatch is modelled as the list of observable events it produces
(handler invocations and exception-sink invocations), so that the control
flow of the Python `try`/`except` blocks is captured exactly.
-/

namespace WebsocketRfx

/-- Exceptions that can be routed to the exception sink. -/
inductive Exc
  | handlerFault (h : Nat)
  | decodeError
  | connectionFailure
  | transportError
  | reconnectExhausted (attempts : Nat)
  deriving DecidableEq, Repr

/-- The three handler categories of the registry. -/
inductive Category
  | marketData
  | orderReport
  | error
  deriving DecidableEq, Repr

/-- An inbound frame after JSON decoding: the two fields `on_message`
inspects, each possibly absent (`'status' in msg` / `'type' in msg`). -/
structure InboundMsg where
  status : Option String
  type : Option String
  deriving DecidableEq, Repr

/-- What a handler is invoked with: either the decoded frame itself or a
formatted text (the two `*_not_supported` branches pass a string). -/
inductive Payload
  | frame (m : InboundMsg)
  | text (s : String)
  deriving DecidableEq, Repr

/-- Observable dispatch events: a handler invocation, or an invocation of
the exception sink. -/
inductive DEvent
  | invoke (cat : Category) (h : Nat) (p : Payload)
  | sink (h : Nat) (e : Exc)
  deriving DecidableEq, Repr

/-- The handler registry fields of `WebSocketClient.__init__`. -/
structure Registry where
  market_data_handlers : List Nat
  order_report_handlers : List Nat
  error_handlers : List Nat
  exception_handler : Option Nat
  deriving DecidableEq, Repr

/-- `on_exception`: invoke the exception handler iff one is set
(`if self.exception_handler is not None`); otherwise the exception is
silently dropped. Returns the list of sink invocations performed. -/
def on_exception (exception_handler : Option Nat) (e : Exc) : List (Nat × Exc) :=
  match exception_handler with
  | some h => [(h, e)]
  | none => []

/-- A deterministic stand-in for Python's string rendering of the decoded
dict, used when a frame is interpolated into an error text. -/
def renderMsg (m : InboundMsg) : String :=
  "status=" ++ (match m.status with | some s => s | none => "absent")
    ++ ";type=" ++ (match m.type with | some t => t | none => "absent")

/-- The text built from the template
`"Websocket: Message Type not Supported. Message: {msg}"`. -/
def msgTypeNotSupported (m : InboundMsg) : String :=
  "Websocket: Message Type not Supported. Message: " ++ renderMsg m

/-- The text built from the template
`"Websocket: Message Supported. Message: {msg}"` (the source's wording). -/
def msgNotSupported (m : InboundMsg) : String :=
  "Websocket: Message Supported. Message: " ++ renderMsg m

/-- Python's `str.upper()` (on the relevant ASCII type discriminants),
character-wise uppercasing. -/
def pyUpper (s : String) : String :=
  String.mk (s.data.map Char.toUpper)

/-- One `for handler in handlers: handler(msg)` loop executed inside the
single `try` of `on_message`: handlers run in list order; the first
raising handler produces its invocation event and then the loop is
abandoned with the pending exception (Python propagates it out of the
`for` to the enclosing `except`). -/
def runHandlers (cat : Category) (raises : Nat → Bool) (p : Payload) :
    List Nat → List DEvent × Option Exc
  | [] => ([], none)
  | h :: rest =>
    if raises h then
      ([DEvent.invoke cat h p], some (Exc.handlerFault h))
    else
      let r := runHandlers cat raises p rest
      (DEvent.invoke cat h p :: r.1, r.2)

/-- The classification-and-dispatch body of `on_message` (the code inside
its `try`), returning the events produced and the exception that escaped
the body, if any. -/
def dispatchFrame (reg : Registry) (raises : Nat → Bool) (m : InboundMsg) :
    List DEvent × Option Exc :=
  if m.status = some "ERROR" then
    runHandlers Category.error raises (Payload.frame m) reg.error_handlers
  else
    match m.type with
    | some t =>
      let msg_type := pyUpper t
      if msg_type = "MD" then
        runHandlers Category.marketData raises (Payload.frame m) reg.market_data_handlers
      else if msg_type = "OR" then
        runHandlers Category.orderReport raises (Payload.frame m) reg.order_report_handlers
      else
        runHandlers Category.error raises (Payload.text (msgTypeNotSupported m)) reg.error_handlers
    | none =>
      runHandlers Category.error raises (Payload.text (msgNotSupported m)) reg.error_handlers

/-- The classification performed by `dispatchFrame`: the category, the
payload handed to the handlers, and the handler list of the registry used
for the frame (error status first, then the case-insensitive `MD` / `OR`
discriminant, then the two unsupported branches). -/
def frameRoute (reg : Registry) (m : InboundMsg) : Category × Payload × List Nat :=
  if m.status = some "ERROR" then
    (Category.error, Payload.frame m, reg.error_handlers)
  else
    match m.type with
    | some t =>
      let msg_type := pyUpper t
      if msg_type = "MD" then
        (Category.marketData, Payload.frame m, reg.market_data_handlers)
      else if msg_type = "OR" then
        (Category.orderReport, Payload.frame m, reg.order_report_handlers)
      else
        (Category.error, Payload.text (msgTypeNotSupported m), reg.error_handlers)
    | none =>
      (Category.error, Payload.text (msgNotSupported m), reg.error_handlers)

/-- `on_message`: decode the JSON text (a failed decode is an exception
raised by `simplejson.loads` inside the `try`, modelled as `decoded = none`),
run the dispatch body, and route any escaping exception to `on_exception`.
The function is total: the listener callback always returns normally. -/
def on_message (reg : Registry) (raises : Nat → Bool) (decoded : Option InboundMsg) :
    List DEvent :=
  match decoded with
  | none => (on_exception reg.exception_handler Exc.decodeError).map fun p => DEvent.sink p.1 p.2
  | some m =>
    let r := dispatchFrame reg raises m
    r.1 ++ match r.2 with
           | some e => (on_exception reg.exception_handler e).map fun p => DEvent.sink p.1 p.2
           | none => []

/-! ## Session: `connect`, `on_error` -/

/-- Observable events of `connect` / `on_error`. `raised e` stands for an
exception escaping to the caller; the translation shows `connect` never
emits it (its only failure path goes through `on_exception`). -/
inductive CEvent
  | startListener
  | pollSleep
  | closeSocket
  | sink (h : Nat) (e : Exc)
  | raised (e : Exc)
  deriving DecidableEq, Repr

/-- The `while` polling loop of `connect`: starting from check index `k`
with `conn_timeout = fuel` remaining, keep sleeping one unit while the
listener thread is alive, the socket is not connected, and the timeout is
not exhausted. `alive j` / `sockConnected j` give the thread and socket
state observed at the `j`-th check. Returns the index of the final check,
which equals the number of one-unit sleeps performed. -/
def pollLoop (alive sockConnected : Nat → Bool) : Nat → Nat → Nat
  | 0, k => k
  | fuel + 1, k =>
    if alive k && !(sockConnected k) then pollLoop alive sockConnected fuel (k + 1) else k

/-- `connect`: if the websocket thread exists and is alive, return without
doing anything. Otherwise start the listener thread, poll for up to
`conn_timeout = 5` one-unit sleeps, and if the socket is still not
connected, route `ApiException("Connection could not be established.")`
to `on_exception` (never raised to the caller). -/
def connect (thread_running : Bool) (alive sockConnected : Nat → Bool)
    (exception_handler : Option Nat) : List CEvent :=
  if thread_running then []
  else
    let k := pollLoop alive sockConnected 5 0
    CEvent.startListener :: (List.replicate k CEvent.pollSleep ++
      if sockConnected k then []
      else (on_exception exception_handler Exc.connectionFailure).map fun p => CEvent.sink p.1 p.2)

/-- `on_error`: proactively close the socket, then forward the exception
to `on_exception`. -/
def on_error (exception_handler : Option Nat) (e : Exc) : List CEvent :=
  CEvent.closeSocket :: (on_exception exception_handler e).map fun p => CEvent.sink p.1 p.2

/-! ## Reconnection supervisor -/

/-- The reconnection-control instance variables (`__init__` defaults:
`auto_reconnect = True`, `max_reconnect_attempts = 3`, `reconnect_delay = 2`). -/
structure WSClientConfig where
  auto_reconnect : Bool
  max_reconnect_attempts : Nat
  reconnect_delay : Nat
  deriving DecidableEq, Repr

/-- `set_auto_reconnect(enabled, max_attempts, delay)`: assigns all three
reconnection-control fields from its parameters. -/
def set_auto_reconnect (s : WSClientConfig) (enabled : Bool) (max_attempts : Nat)
    (delay : Nat) : WSClientConfig :=
  { s with
    auto_reconnect := enabled
    max_reconnect_attempts := max_attempts
    reconnect_delay := delay }

/-- A call of `set_auto_reconnect` that supplies only `enabled`, with the
Python keyword defaults `max_attempts=3, delay=2` filled in. -/
def set_auto_reconnect_only_enabled (s : WSClientConfig) (enabled : Bool) : WSClientConfig :=
  set_auto_reconnect s enabled 3 2

/-- Observable actions of one `_attempt_reconnection` run. -/
inductive RAction
  | sleep (d : Nat)
  | updateToken
  | connectAttempt (n : Nat)
  | restoreSubs
  | notifyExhausted (h : Nat)
  deriving DecidableEq, Repr

/-- The actions of one loop iteration up to and including its `connect()`
call: sleep the current delay; on attempt 1 connect directly; on later
attempts first call `update_token` on the REST client found by identity
match in the environment registry (`hasRest` says whether such an entry
with a REST client exists), then connect. -/
def attemptBlock (hasRest : Bool) (n delay : Nat) : List RAction :=
  RAction.sleep delay ::
    (if n = 1 then [RAction.connectAttempt n]
     else (if hasRest then [RAction.updateToken] else []) ++ [RAction.connectAttempt n])

/-- The `while attempt <= max_attempts` loop of `_attempt_reconnection`,
by recursion on the number of remaining attempts, carrying the current
attempt index and delay. `succeeds n` says whether `is_connected()` holds
after the `connect()` of attempt `n` (an exception during the attempt is
caught and behaves as a failed attempt). On success: one stabilization
sleep, then `_restore_subscriptions`, then return. On failure:
`attempt += 1; delay *= 2`. Returns the action trace and whether the run
ended in success. -/
def reconnLoop (succeeds : Nat → Bool) (hasRest : Bool) :
    Nat → Nat → Nat → List RAction × Bool
  | 0, _, _ => ([], false)
  | r + 1, n, delay =>
    let blk := attemptBlock hasRest n delay
    if succeeds n then
      (blk ++ [RAction.sleep 1, RAction.restoreSubs], true)
    else
      let rest := reconnLoop succeeds hasRest r (n + 1) (delay * 2)
      (blk ++ rest.1, rest.2)

/-- `_attempt_reconnection`: return immediately if `auto_reconnect` is off;
otherwise run the attempt loop from `attempt = 1`, `delay = reconnect_delay`,
and if all attempts failed, invoke the exception handler (directly guarded
by `if self.exception_handler:`) with the summary `ApiException`. -/
def _attempt_reconnection (cfg : WSClientConfig) (succeeds : Nat → Bool)
    (hasRest : Bool) (exception_handler : Option Nat) : List RAction :=
  if cfg.auto_reconnect = false then []
  else
    let r := reconnLoop succeeds hasRest cfg.max_reconnect_attempts 1 cfg.reconnect_delay
    if r.2 then r.1
    else r.1 ++ match exception_handler with
                | some h => [RAction.notifyExhausted h]
                | none => []

/-! ## Subscription ledger and wire messages -/

/-- A stored market-data subscription (`subscription_info` dict): the four
fields compared by the dedup scan. `entries` and `market` are the enum
member values (strings). -/
structure MDSubscription where
  tickers : List String
  entries : List String
  market : String
  depth : Nat
  deriving DecidableEq, Repr

/-- A stored order-report subscription (`subscription_info` dict). -/
structure ORSubscription where
  account : String
  snapshot : Bool
  deriving DecidableEq, Repr

/-- `self.active_subscriptions`, with its two insertion-ordered lists. -/
structure ActiveSubscriptions where
  market_data : List MDSubscription
  order_report : List ORSubscription
  deriving DecidableEq, Repr

/-- The subscription-relevant client state: the ledger plus the ordered
record of the wire messages passed to `ws_connection.send`. -/
structure ClientState where
  active_subscriptions : ActiveSubscriptions
  sent : List String
  deriving DecidableEq, Repr

/-- Modelled from the spec: the `INSTRUMENT` template lives in the external
`messages` module (wire-message string templating is out of scope); a
brace-free stand-in naming symbol and market id. -/
def INSTRUMENT (ticker market : String) : String :=
  "symbol=" ++ ticker ++ ",marketId=" ++ market

/-- Modelled from the spec: the `DOUBLE_QUOTES` template of the external
`messages` module, wrapping an entry value in double quotes. -/
def DOUBLE_QUOTES (item : String) : String :=
  "\"" ++ item ++ "\""

/-- Modelled from the spec: the `MARKET_DATA_SUBSCRIPTION` template of the
external `messages` module, naming depth, entries and symbols. -/
def MARKET_DATA_SUBSCRIPTION (depth : Nat) (entries symbols : String) : String :=
  "type=smd;depth=" ++ toString depth ++ ";entries=" ++ entries ++ ";products=" ++ symbols

/-- Python's `bool.__str__().lower()`. -/
def pyBoolLower (b : Bool) : String :=
  if b then "true" else "false"

/-- Modelled from the spec: the `ORDER_SUBSCRIPTION` template of the
external `messages` module, naming account and the lowercase snapshot flag. -/
def ORDER_SUBSCRIPTION (a snapshot : String) : String :=
  "type=os;account=" ++ a ++ ";snapshotOnlyActive=" ++ snapshot

/-- The market-data message assembly shared verbatim by
`market_data_subscription` and `_restore_subscriptions`: instruments from
the `INSTRUMENT` template joined by commas, quoted entries joined by
commas, then the `MARKET_DATA_SUBSCRIPTION` template. -/
def encodeMDSubscription (sub : MDSubscription) : String :=
  let instruments_string := String.intercalate "," (sub.tickers.map fun t => INSTRUMENT t sub.market)
  let entries_string := String.intercalate "," (sub.entries.map DOUBLE_QUOTES)
  MARKET_DATA_SUBSCRIPTION sub.depth entries_string instruments_string

/-- The order-report message assembly shared by `order_report_subscription`
and `_restore_subscriptions`. -/
def encodeORSubscription (sub : ORSubscription) : String :=
  ORDER_SUBSCRIPTION sub.account (pyBoolLower sub.snapshot)

/-- `market_data_subscription(tickers, entries, market, depth)`: build the
`subscription_info` record; scan `active_subscriptions['market_data']` for
a record equal on all four fields and append the record only when the scan
finds none; then always encode and send the wire message. -/
def market_data_subscription (s : ClientState) (tickers entries : List String)
    (market : String) (depth : Nat) : ClientState :=
  let subscription_info : MDSubscription :=
    { tickers := tickers, entries := entries, market := market, depth := depth }
  let md :=
    if subscription_info ∈ s.active_subscriptions.market_data then
      s.active_subscriptions.market_data
    else
      s.active_subscriptions.market_data ++ [subscription_info]
  { active_subscriptions := { s.active_subscriptions with market_data := md }
    sent := s.sent ++ [encodeMDSubscription subscription_info] }

/-- `order_report_subscription(account, snapshot)`: the same
dedup-then-always-send pattern for the order-report kind. -/
def order_report_subscription (s : ClientState) (account : String) (snapshot : Bool) :
    ClientState :=
  let subscription_info : ORSubscription := { account := account, snapshot := snapshot }
  let orl :=
    if subscription_info ∈ s.active_subscriptions.order_report then
      s.active_subscriptions.order_report
    else
      s.active_subscriptions.order_report ++ [subscription_info]
  { active_subscriptions := { s.active_subscriptions with order_report := orl }
    sent := s.sent ++ [encodeORSubscription subscription_info] }

/-- Observable events of `_restore_subscriptions`: a wire send or the
small inter-message pause (`time.sleep(0.1)`). -/
inductive WireEvent
  | send (msg : String)
  | pause
  deriving DecidableEq, Repr

/-- The first `for` loop of `_restore_subscriptions`: rebuild and send the
message of each market-data record in list order, pausing after each. -/
def restoreMDLoop : List MDSubscription → List WireEvent
  | [] => []
  | sub :: rest =>
    WireEvent.send (encodeMDSubscription sub) :: WireEvent.pause :: restoreMDLoop rest

/-- The second `for` loop of `_restore_subscriptions`: same for the
order-report records. -/
def restoreORLoop : List ORSubscription → List WireEvent
  | [] => []
  | sub :: rest =>
    WireEvent.send (encodeORSubscription sub) :: WireEvent.pause :: restoreORLoop rest

/-- `_restore_subscriptions`: replay all market-data records, then all
order-report records (sends succeed; a raising send would abort the rest
and be swallowed by the surrounding `except`). -/
def _restore_subscriptions (subs : ActiveSubscriptions) : List WireEvent :=
  restoreMDLoop subs.market_data ++ restoreORLoop subs.order_report

/-- The wire messages of a list of restore events, in order. -/
def sendsOf (evs : List WireEvent) : List String :=
  evs.filterMap fun e => match e with
    | WireEvent.send m => some m
    | WireEvent.pause => none

/-- `clear_subscriptions`: reset both ledger collections to empty. -/
def clear_subscriptions : ActiveSubscriptions :=
  { market_data := [], order_report := [] }

/-! ## `send_order` optional parameters -/

/-- Modelled from the spec: the order-type enum of the external
`components.enums` module; only `LIMIT` is discriminated by `send_order`. -/
inductive OrderType
  | LIMIT
  | MARKET
  | MARKET_TO_LIMIT
  deriving DecidableEq, Repr

/-- Modelled from the spec: the time-in-force enum of the external
`components.enums` module; only `GoodTillDate` is discriminated. -/
inductive TimeInForce
  | Day
  | ImmediateOrCancel
  | FillOrKill
  | GoodTillDate
  deriving DecidableEq, Repr

/-- The four optional-parameter templates of the external `messages`
module, as abstract fragments (their text is out of scope; only presence
and order matter). -/
inductive OptFragment
  | GOOD_TILL_DATE
  | ICEBERG
  | WS_CLIENT_ORDER_ID
  | PRICE
  deriving DecidableEq, Repr

/-- The optional-parameter assembly of `send_order`: starting from the
empty fragment, append `GOOD_TILL_DATE` iff `time_in_force is
TimeInForce.GoodTillDate`, then `ICEBERG` iff `iceberg`, then
`WS_CLIENT_ORDER_ID` iff `ws_client_order_id is not None`, then `PRICE`
iff `price is not None and order_type is OrderType.LIMIT`. -/
def send_order_opt_params (time_in_force : TimeInForce) (iceberg : Bool)
    (ws_client_order_id : Option String) (price : Option Nat)
    (order_type : OrderType) : List OptFragment :=
  let opt_params : List OptFragment := []
  let opt_params :=
    if time_in_force = TimeInForce.GoodTillDate then
      opt_params ++ [OptFragment.GOOD_TILL_DATE] else opt_params
  let opt_params :=
    if iceberg then opt_params ++ [OptFragment.ICEBERG] else opt_params
  let opt_params :=
    if ws_client_order_id.isSome then
      opt_params ++ [OptFragment.WS_CLIENT_ORDER_ID] else opt_params
  let opt_params :=
    if price.isSome ∧ order_type = OrderType.LIMIT then
      opt_params ++ [OptFragment.PRICE] else opt_params
  opt_params

/-! ## Helper lemmas -/

lemma sendsOf_append (a b : List WireEvent) : sendsOf (a ++ b) = sendsOf a ++ sendsOf b := by
  simp [sendsOf, List.filterMap_append]

lemma sendsOf_restoreMDLoop (l : List MDSubscription) :
    sendsOf (restoreMDLoop l) = l.map encodeMDSubscription := by
  induction l with
  | nil => rfl
  | cons sub rest ih => simp [restoreMDLoop, sendsOf, List.filterMap] at ih ⊢; simp [ih]

lemma sendsOf_restoreORLoop (l : List ORSubscription) :
    sendsOf (restoreORLoop l) = l.map encodeORSubscription := by
  induction l with
  | nil => rfl
  | cons sub rest ih => simp [restoreORLoop, sendsOf, List.filterMap] at ih ⊢; simp [ih]

lemma runHandlers_no_raise (cat : Category) (raises : Nat → Bool) (p : Payload)
    (hs : List Nat) (h : ∀ g ∈ hs, raises g = false) :
    runHandlers cat raises p hs = (hs.map fun g => DEvent.invoke cat g p, none) := by
  induction hs with
  | nil => rfl
  | cons g rest ih =>
    have hg : raises g = false := h g (by simp)
    simp [runHandlers, hg, ih fun x hx => h x (by simp [hx])]

lemma runHandlers_first_raise (cat : Category) (raises : Nat → Bool) (p : Payload)
    (pre post : List Nat) (b : Nat)
    (hpre : ∀ g ∈ pre, raises g = false) (hb : raises b = true) :
    runHandlers cat raises p (pre ++ b :: post)
      = (pre.map (fun g => DEvent.invoke cat g p) ++ [DEvent.invoke cat b p],
         some (Exc.handlerFault b)) := by
  induction pre with
  | nil => simp [runHandlers, hb]
  | cons g rest ih =>
    have hg : raises g = false := hpre g (by simp)
    have ih' := ih fun x hx => hpre x (by simp [hx])
    simp [runHandlers, hg, ih']

lemma dispatchFrame_route (reg : Registry) (raises : Nat → Bool) (m : InboundMsg) :
    dispatchFrame reg raises m
      = runHandlers (frameRoute reg m).1 raises (frameRoute reg m).2.1
          (frameRoute reg m).2.2 := by
  unfold dispatchFrame frameRoute
  by_cases h : m.status = some "ERROR"
  · simp [h]
  · cases ht : m.type with
    | none => simp [h, ht]
    | some t =>
      by_cases h1 : pyUpper t = "MD"
      · simp [h, ht, h1]
      · by_cases h2 : pyUpper t = "OR"
        · simp [h, ht, h1, h2]
        · simp [h, ht, h1, h2]

/-- The events of a dispatch that are handler invocations outside the
error category. -/
def nonErrorInvokes (evs : List DEvent) : List DEvent :=
  evs.filter fun ev => match ev with
    | DEvent.invoke Category.marketData _ _ => true
    | DEvent.invoke Category.orderReport _ _ => true
    | _ => false

lemma nonErrorInvokes_append (a b : List DEvent) :
    nonErrorInvokes (a ++ b) = nonErrorInvokes a ++ nonErrorInvokes b := by
  simp [nonErrorInvokes, List.filter_append]

lemma nonErrorInvokes_runHandlers_error (raises : Nat → Bool) (p : Payload) (hs : List Nat) :
    nonErrorInvokes (runHandlers Category.error raises p hs).1 = [] := by
  induction hs with
  | nil => rfl
  | cons g rest ih =>
    by_cases hg : raises g
    · simp [runHandlers, hg, nonErrorInvokes]
    · simp [runHandlers, hg, nonErrorInvokes] at ih ⊢
      exact ih

lemma nonErrorInvokes_sinkMap (l : List (Nat × Exc)) :
    nonErrorInvokes (l.map fun p => DEvent.sink p.1 p.2) = [] := by
  induction l with
  | nil => rfl
  | cons q rest ih => simpa [nonErrorInvokes] using ih

lemma reconnLoop_fst_succ (succeeds : Nat → Bool) (hasRest : Bool) (r n d : Nat) :
    (reconnLoop succeeds hasRest (r + 1) n d).1
      = attemptBlock hasRest n d
        ++ if succeeds n then [RAction.sleep 1, RAction.restoreSubs]
           else (reconnLoop succeeds hasRest r (n + 1) (d * 2)).1 := by
  by_cases hs : succeeds n <;> simp [reconnLoop, hs]

lemma attemptBlock_one (hasRest : Bool) (d : Nat) :
    attemptBlock hasRest 1 d = [RAction.sleep d, RAction.connectAttempt 1] := by
  simp [attemptBlock]

lemma attemptBlock_later (n d : Nat) (h : n ≠ 1) :
    attemptBlock true n d
      = [RAction.sleep d, RAction.updateToken, RAction.connectAttempt n] := by
  simp [attemptBlock, h]

lemma reconnLoop_refresh_before_connect (succeeds : Nat → Bool) (m : Nat) (hm : 2 ≤ m) :
    ∀ r n0 d, RAction.connectAttempt m ∈ (reconnLoop succeeds true r n0 d).1 →
      ∃ l1 l2, (reconnLoop succeeds true r n0 d).1
        = l1 ++ RAction.updateToken :: RAction.connectAttempt m :: l2 := by
  intro r
  induction r with
  | zero =>
    intro n0 d hmem
    simp [reconnLoop] at hmem
  | succ r ih =>
    intro n0 d hmem
    rw [reconnLoop_fst_succ] at hmem ⊢
    by_cases h1 : n0 = 1
    · subst h1
      rw [attemptBlock_one] at hmem ⊢
      by_cases hs : succeeds 1
      · rw [if_pos hs] at hmem
        simp at hmem
        omega
      · rw [if_neg hs] at hmem ⊢
        simp at hmem
        rcases hmem with h | h
        · omega
        · obtain ⟨l1, l2, hl⟩ := ih 2 (d * 2) h
          refine ⟨RAction.sleep d :: RAction.connectAttempt 1 :: l1, l2, ?_⟩
          simp [hl]
    · rw [attemptBlock_later _ _ h1] at hmem ⊢
      by_cases hs : succeeds n0
      · rw [if_pos hs] at hmem ⊢
        simp at hmem
        refine ⟨[RAction.sleep d], [RAction.sleep 1, RAction.restoreSubs], ?_⟩
        simp [hmem]
      · rw [if_neg hs] at hmem ⊢
        simp at hmem
        rcases hmem with h | h
        · exact ⟨[RAction.sleep d], (reconnLoop succeeds true r (n0 + 1) (d * 2)).1,
            by simp [h]⟩
        · obtain ⟨l1, l2, hl⟩ := ih (n0 + 1) (d * 2) h
          refine ⟨RAction.sleep d :: RAction.updateToken :: RAction.connectAttempt n0 :: l1,
            l2, ?_⟩
          simp [hl]

lemma reconnLoop_head (succeeds : Nat → Bool) (hasRest : Bool) (r d : Nat) :
    ∃ rest, (reconnLoop succeeds hasRest (r + 1) 1 d).1
      = RAction.sleep d :: RAction.connectAttempt 1 :: rest := by
  by_cases hs : succeeds 1
  · exact ⟨[RAction.sleep 1, RAction.restoreSubs],
      by rw [reconnLoop_fst_succ, attemptBlock_one, if_pos hs]; rfl⟩
  · exact ⟨(reconnLoop succeeds hasRest r 2 (d * 2)).1,
      by rw [reconnLoop_fst_succ, attemptBlock_one, if_neg hs]; rfl⟩

lemma attempt_reconnection_trace (succeeds : Nat → Bool) (hasRest : Bool)
    (sink : Option Nat) (maxA d0 : Nat) :
    _attempt_reconnection ⟨true, maxA, d0⟩ succeeds hasRest sink
      = (reconnLoop succeeds hasRest maxA 1 d0).1
        ++ if (reconnLoop succeeds hasRest maxA 1 d0).2 then []
           else match sink with
                | some h => [RAction.notifyExhausted h]
                | none => [] := by
  by_cases h2 : (reconnLoop succeeds hasRest maxA 1 d0).2
    <;> simp [_attempt_reconnection, h2]

lemma pollLoop_le (alive sockConnected : Nat → Bool) :
    ∀ fuel k, pollLoop alive sockConnected fuel k ≤ k + fuel := by
  intro fuel
  induction fuel with
  | zero =>
    intro k
    simp [pollLoop]
  | succ f ih =>
    intro k
    by_cases h : alive k && !(sockConnected k)
    · calc pollLoop alive sockConnected (f + 1) k
          = pollLoop alive sockConnected f (k + 1) := by simp [pollLoop, h]
        _ ≤ (k + 1) + f := ih (k + 1)
        _ = k + (f + 1) := by omega
    · simp [pollLoop, h]

/-- The exception-sink invocations among dispatch events. -/
def sinkEventsD (evs : List DEvent) : List DEvent :=
  evs.filter fun ev => match ev with
    | DEvent.sink _ _ => true
    | _ => false

/-- The exception-sink invocations among session events. -/
def sinkEventsC (evs : List CEvent) : List CEvent :=
  evs.filter fun ev => match ev with
    | CEvent.sink _ _ => true
    | _ => false

/-- The exhaustion notifications among reconnection actions. -/
def notifyEvents (evs : List RAction) : List RAction :=
  evs.filter fun ev => match ev with
    | RAction.notifyExhausted _ => true
    | _ => false

lemma notifyEvents_append (a b : List RAction) :
    notifyEvents (a ++ b) = notifyEvents a ++ notifyEvents b := by
  simp [notifyEvents, List.filter_append]

lemma sinkEventsD_runHandlers (cat : Category) (raises : Nat → Bool) (p : Payload)
    (hs : List Nat) : sinkEventsD (runHandlers cat raises p hs).1 = [] := by
  induction hs with
  | nil => rfl
  | cons g rest ih =>
    by_cases hg : raises g
    · simp [runHandlers, hg, sinkEventsD]
    · simp [runHandlers, hg, sinkEventsD] at ih ⊢
      exact ih

lemma sinkEventsD_dispatchFrame (reg : Registry) (raises : Nat → Bool) (m : InboundMsg) :
    sinkEventsD (dispatchFrame reg raises m).1 = [] := by
  unfold dispatchFrame
  by_cases h : m.status = some "ERROR"
  · simp [h, sinkEventsD_runHandlers]
  · rw [if_neg h]
    cases m.type with
    | none => simp [sinkEventsD_runHandlers]
    | some t =>
      dsimp only
      split_ifs <;> simp [sinkEventsD_runHandlers]

lemma sinkEventsC_replicate (k : Nat) :
    sinkEventsC (List.replicate k CEvent.pollSleep) = [] := by
  induction k with
  | zero => rfl
  | succ k ih => simp [sinkEventsC, List.replicate_succ]

lemma notifyEvents_attemptBlock (hasRest : Bool) (n d : Nat) :
    notifyEvents (attemptBlock hasRest n d) = [] := by
  by_cases h : n = 1 <;> cases hasRest <;> simp [attemptBlock, h, notifyEvents]

lemma notifyEvents_reconnLoop (succeeds : Nat → Bool) (hasRest : Bool) :
    ∀ r n d, notifyEvents (reconnLoop succeeds hasRest r n d).1 = [] := by
  intro r
  induction r with
  | zero =>
    intro n d
    rfl
  | succ r ih =>
    intro n d
    rw [reconnLoop_fst_succ, notifyEvents_append, notifyEvents_attemptBlock]
    by_cases hs : succeeds n
    · simp [hs, notifyEvents]
    · simp [hs, ih (n + 1) (d * 2)]

/-! ## Claims -/

/-- Claim C1 counterexample: with error handlers `[1, 2]` registered, the
exception of handler 1 is routed to the exception sink, but handler 2 is
never invoked for that frame — dispatch to the remaining handlers of the
category is prevented, contrary to the claim. -/
theorem c1_counterexample :
    DEvent.sink 9 (Exc.handlerFault 1)
        ∈ on_message ⟨[], [], [1, 2], some 9⟩ (fun g => g == 1)
            (some { status := some "ERROR", type := none })
      ∧ DEvent.invoke Category.error 2 (Payload.frame { status := some "ERROR", type := none })
        ∉ on_message ⟨[], [], [1, 2], some 9⟩ (fun g => g == 1)
            (some { status := some "ERROR", type := none }) := by
  decide

/-- Claim C1 as amended: for every inbound frame of any classification
(error status, `MD`, `OR`, or the unsupported branches), an exception
raised by one handler of the frame's category is routed to the exception
sink and does not terminate the listener (`on_message` returns normally),
but it aborts dispatch for that frame: the handlers registered after the
raising one are not invoked. Shown by the exact event trace when the
first raising handler `b` follows the non-raising prefix `pre` in the
handler list the frame routes to. -/
theorem c1_handler_fault_routed_but_aborts_dispatch
    (reg : Registry) (raises : Nat → Bool) (m : InboundMsg)
    (pre post : List Nat) (b : Nat)
    (hsplit : (frameRoute reg m).2.2 = pre ++ b :: post)
    (hpre : ∀ g ∈ pre, raises g = false)
    (hb : raises b = true) :
    on_message reg raises (some m)
      = pre.map (fun g => DEvent.invoke (frameRoute reg m).1 g (frameRoute reg m).2.1)
        ++ [DEvent.invoke (frameRoute reg m).1 b (frameRoute reg m).2.1]
        ++ (on_exception reg.exception_handler (Exc.handlerFault b)).map
            fun p => DEvent.sink p.1 p.2 := by
  have hd := dispatchFrame_route reg raises m
  rw [hsplit, runHandlers_first_raise (frameRoute reg m).1 raises (frameRoute reg m).2.1
    pre post b hpre hb] at hd
  simp [on_message, hd]

/-- Witness for the amended C1 on a market-data frame: with market-data
handlers `[1, 2, 3]` and handler 2 raising, handler 1 is invoked, handler
2 is invoked and its fault reaches the sink, and handler 3 is skipped. -/
theorem c1_handler_fault_witness :
    on_message ⟨[1, 2, 3], [], [], some 9⟩ (fun g => g == 2)
        (some { status := none, type := some "md" })
      = [DEvent.invoke Category.marketData 1
            (Payload.frame { status := none, type := some "md" }),
         DEvent.invoke Category.marketData 2
            (Payload.frame { status := none, type := some "md" }),
         DEvent.sink 9 (Exc.handlerFault 2)] :=
  (c1_handler_fault_routed_but_aborts_dispatch ⟨[1, 2, 3], [], [], some 9⟩
    (fun g => g == 2) { status := none, type := some "md" } [1] [3] 2
    (by decide) (by decide) rfl).trans (by decide)

/-- Claim C3: in a reconnection run (registry lookup finding this client's
REST client), attempt 1 calls `connect()` with no credential refresh
before it (the run starts with the delay sleep immediately followed by the
first connect), and every later attempt `n ≥ 2` that occurs has the
`update_token` call immediately before its `connect()`. -/
theorem c3_refresher_only_after_first_attempt (succeeds : Nat → Bool)
    (maxA d0 n : Nat) (sink : Option Nat)
    (hmax : 1 ≤ maxA) (hn : 2 ≤ n)
    (hmem : RAction.connectAttempt n
      ∈ _attempt_reconnection ⟨true, maxA, d0⟩ succeeds true sink) :
    (∃ rest, _attempt_reconnection ⟨true, maxA, d0⟩ succeeds true sink
        = RAction.sleep d0 :: RAction.connectAttempt 1 :: rest)
      ∧ ∃ l1 l2, _attempt_reconnection ⟨true, maxA, d0⟩ succeeds true sink
        = l1 ++ RAction.updateToken :: RAction.connectAttempt n :: l2 := by
  obtain ⟨r, rfl⟩ : ∃ r, maxA = r + 1 := ⟨maxA - 1, by omega⟩
  rw [attempt_reconnection_trace] at hmem ⊢
  have hnt : RAction.connectAttempt n
      ∉ (if (reconnLoop succeeds true (r + 1) 1 d0).2 then []
         else match sink with
              | some h => [RAction.notifyExhausted h]
              | none => ([] : List RAction)) := by
    by_cases h2 : (reconnLoop succeeds true (r + 1) 1 d0).2 <;> cases sink <;> simp [h2]
  have hmem' : RAction.connectAttempt n ∈ (reconnLoop succeeds true (r + 1) 1 d0).1 := by
    rcases List.mem_append.mp hmem with h | h
    · exact h
    · exact absurd h hnt
  constructor
  · obtain ⟨rest, hrest⟩ := reconnLoop_head succeeds true r d0
    refine ⟨rest ++ (if (reconnLoop succeeds true (r + 1) 1 d0).2 then []
      else match sink with
           | some h => [RAction.notifyExhausted h]
           | none => []), ?_⟩
    rw [hrest]
    simp
  · obtain ⟨l1, l2, hl⟩ :=
      reconnLoop_refresh_before_connect succeeds n hn (r + 1) 1 d0 hmem'
    refine ⟨l1, l2 ++ (if (reconnLoop succeeds true (r + 1) 1 d0).2 then []
      else match sink with
           | some h => [RAction.notifyExhausted h]
           | none => []), ?_⟩
    rw [hl]
    simp

/-- Witness for C3 on a run with three failing attempts. -/
theorem c3_refresher_witness :
    (∃ rest, _attempt_reconnection ⟨true, 3, 2⟩ (fun _ => false) true none
        = RAction.sleep 2 :: RAction.connectAttempt 1 :: rest)
      ∧ ∃ l1 l2, _attempt_reconnection ⟨true, 3, 2⟩ (fun _ => false) true none
        = l1 ++ RAction.updateToken :: RAction.connectAttempt 2 :: l2 :=
  c3_refresher_only_after_first_attempt (fun _ => false) 3 2 2 none
    (by decide) (by decide) (by decide)

/-- Claim C6: a frame with `status = "ERROR"` is delivered only to error
handlers (no market-data or order-report handler invocation occurs, for
any handler behavior), and a frame without error status whose `type`
matches neither `MD` nor `OR` case-insensitively is delivered to the
error handlers carrying the message-type-not-supported text. -/
theorem c6_classification (mdh orh erh : List Nat) (raises : Nat → Bool) (sink : Option Nat)
    (m1 m2 : InboundMsg) (t : String)
    (h1 : m1.status = some "ERROR")
    (h2 : ¬ m2.status = some "ERROR")
    (h3 : m2.type = some t)
    (h4 : ¬ pyUpper t = "MD")
    (h5 : ¬ pyUpper t = "OR")
    (h6 : ∀ g ∈ erh, raises g = false) :
    nonErrorInvokes (on_message ⟨mdh, orh, erh, sink⟩ raises (some m1)) = []
      ∧ on_message ⟨mdh, orh, erh, sink⟩ raises (some m2)
        = erh.map fun g => DEvent.invoke Category.error g
            (Payload.text (msgTypeNotSupported m2)) := by
  constructor
  · have h0 : on_message ⟨mdh, orh, erh, sink⟩ raises (some m1)
        = (runHandlers Category.error raises (Payload.frame m1) erh).1
          ++ match (runHandlers Category.error raises (Payload.frame m1) erh).2 with
             | some e => (on_exception sink e).map fun p => DEvent.sink p.1 p.2
             | none => [] := by
      simp [on_message, dispatchFrame, h1]
    rw [h0, nonErrorInvokes_append, nonErrorInvokes_runHandlers_error]
    cases (runHandlers Category.error raises (Payload.frame m1) erh).2 with
    | none => rfl
    | some e => simp [nonErrorInvokes_sinkMap]
  · simp [on_message, dispatchFrame, h2, h3, h4, h5,
      runHandlers_no_raise Category.error raises
        (Payload.text (msgTypeNotSupported m2)) erh h6]

/-- Witness for C6 at concrete frames and registry. -/
theorem c6_classification_witness :
    nonErrorInvokes (on_message ⟨[1], [2], [4, 5], some 9⟩ (fun _ => false)
        (some { status := some "ERROR", type := none })) = []
      ∧ on_message ⟨[1], [2], [4, 5], some 9⟩ (fun _ => false)
          (some { status := none, type := some "xx" })
        = [4, 5].map fun g => DEvent.invoke Category.error g
            (Payload.text (msgTypeNotSupported { status := none, type := some "xx" })) :=
  c6_classification [1] [2] [4, 5] (fun _ => false) (some 9)
    { status := some "ERROR", type := none } { status := none, type := some "xx" } "xx"
    rfl (by decide) rfl (by decide) (by decide) (by decide)

/-- Claim C2: with `max_attempts = 3`, `base_delay = 2` and every connect
attempt failing, the run sleeps 2, 4 and 8 units immediately before
attempts 1, 2 and 3 respectively, performs exactly three attempts, and
ends by notifying the exception sink with the summary failure signal
(shown by the full action trace of the run, for either registry shape). -/
theorem c2_exhausted_run_trace (hasRest : Bool) (h : Nat) :
    _attempt_reconnection ⟨true, 3, 2⟩ (fun _ => false) hasRest (some h)
      = if hasRest then
          [RAction.sleep 2, RAction.connectAttempt 1,
           RAction.sleep 4, RAction.updateToken, RAction.connectAttempt 2,
           RAction.sleep 8, RAction.updateToken, RAction.connectAttempt 3,
           RAction.notifyExhausted h]
        else
          [RAction.sleep 2, RAction.connectAttempt 1,
           RAction.sleep 4, RAction.connectAttempt 2,
           RAction.sleep 8, RAction.connectAttempt 3,
           RAction.notifyExhausted h] := by
  cases hasRest <;> rfl

/-- Claim C10: `set_auto_reconnect` assigns all three reconnection fields
from its parameters, so a call supplying only the enabled flag resets
`max_reconnect_attempts` to 3 and `reconnect_delay` to 2 regardless of the
previously configured state `s`. -/
theorem c10_set_auto_reconnect_overwrites (s : WSClientConfig) (enabled : Bool)
    (max_attempts delay : Nat) :
    set_auto_reconnect s enabled max_attempts delay
        = { auto_reconnect := enabled, max_reconnect_attempts := max_attempts,
            reconnect_delay := delay }
      ∧ set_auto_reconnect_only_enabled s enabled
        = { auto_reconnect := enabled, max_reconnect_attempts := 3, reconnect_delay := 2 } :=
  ⟨rfl, rfl⟩

/-- Claim C7: the optional-parameter fragment of `send_order` contains the
price modifier iff a price is given and the order type is `LIMIT`, the
good-till-date modifier iff the time-in-force is `GoodTillDate`, the
iceberg modifier iff the iceberg flag is set, and the client-order-id
modifier iff a client order id is supplied; and the fragments always
appear in the fixed order good-till-date, iceberg, client-order-id, price. -/
theorem c7_send_order_opt_params (time_in_force : TimeInForce) (iceberg : Bool)
    (ws_client_order_id : Option String) (price : Option Nat) (order_type : OrderType) :
    (OptFragment.PRICE ∈ send_order_opt_params time_in_force iceberg ws_client_order_id price order_type
        ↔ price.isSome = true ∧ order_type = OrderType.LIMIT)
      ∧ (OptFragment.GOOD_TILL_DATE ∈ send_order_opt_params time_in_force iceberg ws_client_order_id price order_type
        ↔ time_in_force = TimeInForce.GoodTillDate)
      ∧ (OptFragment.ICEBERG ∈ send_order_opt_params time_in_force iceberg ws_client_order_id price order_type
        ↔ iceberg = true)
      ∧ (OptFragment.WS_CLIENT_ORDER_ID ∈ send_order_opt_params time_in_force iceberg ws_client_order_id price order_type
        ↔ ws_client_order_id.isSome = true)
      ∧ (send_order_opt_params time_in_force iceberg ws_client_order_id price order_type).Sublist
          [OptFragment.GOOD_TILL_DATE, OptFragment.ICEBERG,
           OptFragment.WS_CLIENT_ORDER_ID, OptFragment.PRICE] := by
  unfold send_order_opt_params
  split_ifs <;> simp_all

/-- Claim C4: two `market_data_subscription` calls with structurally
identical parameters leave exactly one matching record in the ledger while
the wire layer sees one send per call (two in total). -/
theorem c4_duplicate_md_subscribe (s : ClientState) (tickers entries : List String)
    (market : String) (depth : Nat)
    (habs : ({ tickers := tickers, entries := entries, market := market, depth := depth } :
        MDSubscription) ∉ s.active_subscriptions.market_data) :
    ((market_data_subscription (market_data_subscription s tickers entries market depth)
        tickers entries market depth).active_subscriptions.market_data.count
        { tickers := tickers, entries := entries, market := market, depth := depth } = 1)
      ∧ (market_data_subscription (market_data_subscription s tickers entries market depth)
          tickers entries market depth).sent
        = s.sent
          ++ [encodeMDSubscription
                { tickers := tickers, entries := entries, market := market, depth := depth },
              encodeMDSubscription
                { tickers := tickers, entries := entries, market := market, depth := depth }] := by
  constructor
  · simp [market_data_subscription, habs, List.count_append,
      List.count_eq_zero_of_not_mem habs]
  · simp [market_data_subscription, habs]

/-- Witness for C4 at a concrete fresh state. -/
theorem c4_duplicate_md_subscribe_witness :
    ((market_data_subscription
        (market_data_subscription ⟨⟨[], []⟩, []⟩ ["DLR"] ["BI"] "ROFX" 1)
        ["DLR"] ["BI"] "ROFX" 1).active_subscriptions.market_data.count
        { tickers := ["DLR"], entries := ["BI"], market := "ROFX", depth := 1 } = 1)
      ∧ (market_data_subscription
          (market_data_subscription ⟨⟨[], []⟩, []⟩ ["DLR"] ["BI"] "ROFX" 1)
          ["DLR"] ["BI"] "ROFX" 1).sent
        = []
          ++ [encodeMDSubscription
                { tickers := ["DLR"], entries := ["BI"], market := "ROFX", depth := 1 },
              encodeMDSubscription
                { tickers := ["DLR"], entries := ["BI"], market := "ROFX", depth := 1 }] :=
  c4_duplicate_md_subscribe ⟨⟨[], []⟩, []⟩ ["DLR"] ["BI"] "ROFX" 1 (by simp)

/-- Claim C5: subscription replay sends one wire message per ledger
record, all market-data records first in insertion order, then all
order-report records in insertion order. -/
theorem c5_replay_order (subs : ActiveSubscriptions) :
    sendsOf (_restore_subscriptions subs)
        = subs.market_data.map encodeMDSubscription
          ++ subs.order_report.map encodeORSubscription
      ∧ (sendsOf (_restore_subscriptions subs)).length
        = subs.market_data.length + subs.order_report.length := by
  have h : sendsOf (_restore_subscriptions subs)
      = subs.market_data.map encodeMDSubscription
        ++ subs.order_report.map encodeORSubscription := by
    simp [_restore_subscriptions, sendsOf_append, sendsOf_restoreMDLoop, sendsOf_restoreORLoop]
  exact ⟨h, by simp [h]⟩

/-- Claim C8: `connect()` is a no-op when a live listener thread is
already running; otherwise it polls for socket openness sleeping at most
5 one-unit intervals, and when openness is not confirmed after the
timeout it routes a connection-failure signal to the exception sink and
raises nothing to the caller. -/
theorem c8_connect_timeout (alive sockConnected : Nat → Bool) (h : Nat) (e : Exc) :
    connect true alive sockConnected (some h) = []
      ∧ (connect false alive sockConnected (some h)).count CEvent.pollSleep ≤ 5
      ∧ (sockConnected (pollLoop alive sockConnected 5 0) = false →
          CEvent.sink h Exc.connectionFailure ∈ connect false alive sockConnected (some h))
      ∧ CEvent.raised e ∉ connect false alive sockConnected (some h) := by
  refine ⟨rfl, ?_, ?_, ?_⟩
  · have hk := pollLoop_le alive sockConnected 5 0
    by_cases hc : sockConnected (pollLoop alive sockConnected 5 0)
    · simp [connect, hc, List.count_cons, List.count_replicate_self]
      omega
    · simp [connect, hc, on_exception, List.count_cons, List.count_append,
        List.count_replicate_self]
      omega
  · intro hc
    simp [connect, hc, on_exception]
  · by_cases hc : sockConnected (pollLoop alive sockConnected 5 0)
    · simp [connect, hc, List.mem_replicate]
    · simp [connect, hc, on_exception, List.mem_replicate]

/-- Witness for C8 with a socket that never reaches the open state. -/
theorem c8_connect_timeout_witness :
    connect true (fun _ => true) (fun _ => false) (some 7) = []
      ∧ (connect false (fun _ => true) (fun _ => false) (some 7)).count CEvent.pollSleep ≤ 5
      ∧ CEvent.sink 7 Exc.connectionFailure
          ∈ connect false (fun _ => true) (fun _ => false) (some 7)
      ∧ CEvent.raised Exc.transportError
          ∉ connect false (fun _ => true) (fun _ => false) (some 7) := by
  have hw := c8_connect_timeout (fun _ => true) (fun _ => false) 7 Exc.transportError
  exact ⟨hw.1, hw.2.1, hw.2.2.1 rfl, hw.2.2.2⟩

/-- Claim C9: with no exception handler set, every fault routed to the
exception sink is silently discarded: `on_exception` performs no
invocation, message decode and handler faults produce no sink event,
a connect timeout produces no sink event, `on_error` only closes the
socket, and reconnection exhaustion produces no notification. -/
theorem c9_none_sink_discards (e : Exc) (raises : Nat → Bool) (mdh orh erh : List Nat)
    (decoded : Option InboundMsg) (alive sockConnected : Nat → Bool)
    (cfg : WSClientConfig) (succeeds : Nat → Bool) (hasRest : Bool) :
    on_exception none e = []
      ∧ sinkEventsD (on_message ⟨mdh, orh, erh, none⟩ raises decoded) = []
      ∧ sinkEventsC (connect false alive sockConnected none) = []
      ∧ on_error none e = [CEvent.closeSocket]
      ∧ notifyEvents (_attempt_reconnection cfg succeeds hasRest none) = [] := by
  refine ⟨rfl, ?_, ?_, rfl, ?_⟩
  · cases decoded with
    | none => rfl
    | some m =>
      have h1 := sinkEventsD_dispatchFrame ⟨mdh, orh, erh, none⟩ raises m
      cases hr : (dispatchFrame ⟨mdh, orh, erh, none⟩ raises m).2 with
      | none =>
        simp [on_message, hr, sinkEventsD, List.filter_append] at h1 ⊢
        exact h1
      | some e2 =>
        simp [on_message, hr, on_exception, sinkEventsD, List.filter_append] at h1 ⊢
        exact h1
  · by_cases hc : sockConnected (pollLoop alive sockConnected 5 0)
      <;> simp [connect, hc, on_exception, sinkEventsC, List.filter_append,
        sinkEventsC_replicate]
  · obtain ⟨auto, maxA, d0⟩ := cfg
    cases auto with
    | false => rfl
    | true =>
      rw [attempt_reconnection_trace, notifyEvents_append,
        notifyEvents_reconnLoop succeeds hasRest maxA 1 d0]
      by_cases h2 : (reconnLoop succeeds hasRest maxA 1 d0).2 <;> simp [h2, notifyEvents]

end WebsocketRfx
